import Mathlib

/-!
Shallow embedding of `src/LootProbabilityManager.ts` (spt-pityloot).

JavaScript numbers are modelled by `ℚ`, records (JS objects used as string
maps) by `String → Option β`, and the in-place mutation of the working
inventory record by explicit state passing.  The configuration values
imported from `config/config.json` are passed as an explicit `Config`
value, as the spec describes them: read-only tunables fixed for the
invocation.
-/

namespace PityLoot

/-- JavaScript `Math.round`: round half toward positive infinity. -/
def jround (q : ℚ) : ℤ := ⌊q + 1/2⌋

/-- JavaScript `Math.min` on (non-NaN) numbers. -/
def jmin (a b : ℚ) : ℚ := if a ≤ b then a else b

/-- JavaScript `Math.max` on (non-NaN) numbers. -/
def jmax (a b : ℚ) : ℚ := if a ≤ b then b else a

/-- Configuration values imported from `config/config.json`. -/
structure Config where
  maxDropRateMultiplier : ℚ
  dropRateIncreaseType : String
  dropRateIncreasePerRaid : ℚ
  dropRateIncreasePerHour : ℚ
  keysAdditionalMultiplier : ℚ
  increasesStack : Bool
deriving DecidableEq

/-- `BaseItemRequirement`: fields shared by all three requirement variants. -/
structure BaseItemRequirement where
  itemId : String
  amountRequired : ℚ
  secondsSinceStarted : ℚ
  raidsSinceStarted : ℚ
deriving DecidableEq

/-- The tagged union `ItemRequirement` (quest / questKey / hideout). -/
inductive ItemRequirement where
  | quest (base : BaseItemRequirement) (conditionId : String) (foundInRaid : Bool)
  | questKey (base : BaseItemRequirement)
  | hideout (base : BaseItemRequirement)
deriving DecidableEq

/-- The shared base fields of a requirement. -/
def ItemRequirement.base : ItemRequirement → BaseItemRequirement
  | .quest b _ _ => b
  | .questKey b => b
  | .hideout b => b

def ItemRequirement.itemId (r : ItemRequirement) : String := r.base.itemId

def ItemRequirement.secondsSinceStarted (r : ItemRequirement) : ℚ := r.base.secondsSinceStarted

def ItemRequirement.raidsSinceStarted (r : ItemRequirement) : ℚ := r.base.raidsSinceStarted

def ItemRequirement.isQuestKey : ItemRequirement → Bool
  | .questKey _ => true
  | _ => false

/-- The `upd` sub-object of an inventory item (optional stack count and
optional found-in-raid flag `SpawnedInSession`). -/
structure Upd where
  StackObjectsCount : Option ℚ
  SpawnedInSession : Option Bool
deriving DecidableEq

/-- One entry of `profile.characters.pmc.Inventory.items`. -/
structure InventoryItem where
  _tpl : String
  upd : Option Upd
deriving DecidableEq

/-- The per-item FIR / non-FIR running counts. -/
structure ItemCount where
  foundInRaid : ℚ
  notFoundInRaid : ℚ
deriving DecidableEq

/-- The parts of `IAkiProfile` the algorithm reads: the PMC inventory item
list and the backend counters (`conditionId ↦ value`). -/
structure Profile where
  inventoryItems : List InventoryItem
  backendCounters : String → Option ℚ

/-- Functional update of a JS-object-as-map at one key. -/
def setKey {β : Type} (m : String → Option β) (k : String) (v : β) : String → Option β :=
  fun x => if x = k then some v else m x

/-- One step of the `profile.characters.pmc.Inventory.items.forEach` loop:
`numItems ?? 1` units are added to the FIR bucket when
`upd?.SpawnedInSession` is truthy, otherwise to the non-FIR bucket. -/
def invStep (acc : String → Option ItemCount) (item : InventoryItem) : String → Option ItemCount :=
  let numItems := item.upd.bind (fun u => u.StackObjectsCount)
  let foundInRaid := (item.upd.bind (fun u => u.SpawnedInSession)).getD false
  let count := numItems.getD 1
  let itemRecord := (acc item._tpl).getD ⟨0, 0⟩
  let itemRecord2 :=
    if foundInRaid then { itemRecord with foundInRaid := itemRecord.foundInRaid + count }
    else { itemRecord with notFoundInRaid := itemRecord.notFoundInRaid + count }
  setKey acc item._tpl itemRecord2

/-- `itemsInInventory`: aggregate the inventory into per-item FIR / non-FIR
counts. -/
def itemsInInventory (items : List InventoryItem) : String → Option ItemCount :=
  items.foldl invStep (fun _ => none)

/-- `checkIfHasEnoughAndRemove`: returns whether the requirement is
satisfied together with the updated count record (the TS function mutates
the record in place). -/
def checkIfHasEnoughAndRemove (itemCount : ItemCount) (amountNeeded : ℚ)
    (foundInRaid : Bool) : Bool × ItemCount :=
  if foundInRaid then
    if amountNeeded ≤ itemCount.foundInRaid then
      (true, { itemCount with foundInRaid := itemCount.foundInRaid - amountNeeded })
    else
      (false, itemCount)
  else
    if amountNeeded ≤ itemCount.notFoundInRaid then
      (true, { itemCount with notFoundInRaid := itemCount.notFoundInRaid - amountNeeded })
    else if amountNeeded ≤ itemCount.notFoundInRaid + itemCount.foundInRaid then
      (true, { foundInRaid := itemCount.foundInRaid - (amountNeeded - itemCount.notFoundInRaid),
               notFoundInRaid := -1 })
    else
      (false, itemCount)

/-- `a.type === "quest" && a.foundInRaid`: both the comparator's FIR tier
test and the FIR flag passed to `checkIfHasEnoughAndRemove` (`false` is
passed literally for questKey and hideout requirements). -/
def reqFir : ItemRequirement → Bool
  | .quest _ _ foundInRaid => foundInRaid
  | _ => false

/-- The comparator's secondary key: `raidsSinceStarted` when the configured
basis is `"raid"`, otherwise `secondsSinceStarted`. -/
def sortKey (cfg : Config) (r : ItemRequirement) : ℚ :=
  if cfg.dropRateIncreaseType = "raid" then r.raidsSinceStarted else r.secondsSinceStarted

/-- `comparator(a, b) ≤ 0` for the sort comparator on requirements. -/
def cmpLE (cfg : Config) (a b : ItemRequirement) : Bool :=
  (reqFir a && !reqFir b) ||
    ((reqFir a == reqFir b) && decide (sortKey cfg a ≤ sortKey cfg b))

/-- `allItemRequirements.sort(...)`: ECMAScript `Array.prototype.sort` is
stable, so it is modelled by a stable sort with respect to the comparator's
total preorder. -/
def sortReqs (cfg : Config) (l : List ItemRequirement) : List ItemRequirement :=
  List.insertionSort (fun a b => cmpLE cfg a b = true) l

/-- The amount passed to `checkIfHasEnoughAndRemove` for each requirement
variant: `1` for questKey, `amountRequired − conditionProgress` for quest
(a missing backend counter counts as progress `0`), `amountRequired` for
hideout. -/
def reqAmountNeeded (counters : String → Option ℚ) : ItemRequirement → ℚ
  | .questKey _ => 1
  | .quest b conditionId _ => b.amountRequired - (counters conditionId).getD 0
  | .hideout b => b.amountRequired

/-- The `allItemRequirements.filter` pass of `incompleteItemRequirements`:
walk the (sorted) requirements left to right threading the mutable
inventory record, and keep exactly the requirements whose consumption
attempt fails.  A missing inventory entry fails immediately with no
consumption. -/
def runReqs (counters : String → Option ℚ) :
    (String → Option ItemCount) → List ItemRequirement → List ItemRequirement
  | _, [] => []
  | inv, req :: rest =>
    match inv req.itemId with
    | none => req :: runReqs counters inv rest
    | some itemCount =>
      let res := checkIfHasEnoughAndRemove itemCount (reqAmountNeeded counters req) (reqFir req)
      let inv2 := setKey inv req.itemId res.2
      if res.1 then runReqs counters inv2 rest else req :: runReqs counters inv2 rest

/-- `incompleteItemRequirements`: concatenate quest and hideout
requirements, sort, and filter-with-consumption against the aggregated
inventory. -/
def incompleteItemRequirements (cfg : Config) (profile : Profile)
    (questItemRequirements hideoutItemRequirements : List ItemRequirement) :
    List ItemRequirement :=
  runReqs profile.backendCounters (itemsInInventory profile.inventoryItems)
    (sortReqs cfg (questItemRequirements ++ hideoutItemRequirements))

/-- The per-item multiplier record accumulated from incomplete
requirements. -/
structure DropRateStats where
  timeBasedDropRateMultiplier : ℚ
  raidBasedDropRateMultiplier : ℚ
  isKey : Bool
deriving DecidableEq

/-- The body of the `incompleteItemRequirements.forEach` loop applied to an
already-initialised stats record. -/
def updateStats (cfg : Config) (req : ItemRequirement) (stats : DropRateStats) : DropRateStats :=
  let hoursSinceStarted : ℚ := (jround (req.secondsSinceStarted / 60 / 60) : ℤ)
  let timeMult := hoursSinceStarted * cfg.dropRateIncreasePerHour +
    (if cfg.increasesStack then stats.timeBasedDropRateMultiplier else 1)
  let stats1 := { stats with
    timeBasedDropRateMultiplier := jmax stats.timeBasedDropRateMultiplier timeMult }
  let raidMult := req.raidsSinceStarted * cfg.dropRateIncreasePerRaid +
    (if cfg.increasesStack then stats1.raidBasedDropRateMultiplier else 1)
  { stats1 with
    raidBasedDropRateMultiplier := jmax stats1.raidBasedDropRateMultiplier raidMult }

/-- One step of the multipliers loop: `??=` initialises a fresh record
(multipliers `1`, `isKey` from this first requirement's type), then the
update runs on it. -/
def multStep (cfg : Config) (m : String → Option DropRateStats) (req : ItemRequirement) :
    String → Option DropRateStats :=
  let stats := (m req.itemId).getD ⟨1, 1, req.isQuestKey⟩
  setKey m req.itemId (updateStats cfg req stats)

/-- `itemDropRateMultipliers`: fold the incomplete requirements into the
per-item stats record. -/
def itemDropRateMultipliers (cfg : Config) (reqs : List ItemRequirement) :
    String → Option DropRateStats :=
  reqs.foldl (multStep cfg) (fun _ => none)

/-- The basis-selected multiplier of a stats record
(`dropRateIncreaseType === "raid"` picks the raid-based one). -/
def basisMult (cfg : Config) (m : DropRateStats) : ℚ :=
  if cfg.dropRateIncreaseType = "raid" then m.raidBasedDropRateMultiplier
  else m.timeBasedDropRateMultiplier

/-- `getNewLootProbability`: identity for items without a stats entry;
otherwise clamp the basis multiplier at `maxDropRateMultiplier`, apply the
key bonus after the clamp, and `Math.round` the product. -/
def getNewLootProbability (cfg : Config) (mults : String → Option DropRateStats)
    (tpl : String) (relativeProbability : ℚ) : ℚ :=
  match mults tpl with
  | none => relativeProbability
  | some maybeMult =>
    let p1 :=
      if cfg.dropRateIncreaseType = "raid" then
        relativeProbability * jmin cfg.maxDropRateMultiplier maybeMult.raidBasedDropRateMultiplier
      else
        relativeProbability * jmin cfg.maxDropRateMultiplier maybeMult.timeBasedDropRateMultiplier
    let p2 := if maybeMult.isKey then p1 * cfg.keysAdditionalMultiplier else p1
    ((jround p2 : ℤ) : ℚ)

/-- One `(tpl, relativeProbability)` entry of a container's
`itemDistribution`. -/
structure LootDistEntry where
  tpl : String
  relativeProbability : ℚ
deriving DecidableEq

/-- `IStaticLootDetails`: the per-container item distribution plus the
item-count distribution, which the rewrite leaves untouched. -/
structure StaticLootDetails where
  itemcountDistribution : List (ℚ × ℚ)
  itemDistribution : List LootDistEntry
deriving DecidableEq

/-- The `newStaticLoot` loop: rebuild every container, mapping each
distribution entry through `getNewLootProbability`. -/
def newStaticLoot (cfg : Config) (mults : String → Option DropRateStats)
    (staticLoot : List (String × StaticLootDetails)) : List (String × StaticLootDetails) :=
  staticLoot.map (fun entry =>
    (entry.1,
      { itemcountDistribution := entry.2.itemcountDistribution,
        itemDistribution := entry.2.itemDistribution.map (fun dist =>
          { tpl := dist.tpl,
            relativeProbability :=
              getNewLootProbability cfg mults dist.tpl dist.relativeProbability }) }))

/-- One entry of a spawn point's `template.Items`. -/
structure TemplateItem where
  _id : String
  _tpl : String
deriving DecidableEq

/-- The `composedKey` object of a loose-loot distribution entry. -/
structure ComposedKey where
  key : String
deriving DecidableEq

/-- One entry of a spawn point's `itemDistribution`. -/
structure ItemDistEntry where
  composedKey : ComposedKey
  relativeProbability : ℚ
deriving DecidableEq

/-- The spawn-point template: its id and placeable item instances. -/
structure SpawnPointTemplate where
  Id : String
  Items : List TemplateItem
deriving DecidableEq

/-- A loose-loot spawn point. -/
structure SpawnPoint where
  locationId : String
  template : SpawnPointTemplate
  itemDistribution : List ItemDistEntry
deriving DecidableEq

/-- `ILooseLoot`: the spawn-point list (the remaining fields are copied
verbatim by the spread and are modelled by `rest`). -/
structure LooseLoot where
  spawnpoints : List SpawnPoint
  rest : String
deriving DecidableEq

/-- One location of `ILocations`: its loose loot when the `"looseLoot"`
key is present, plus the untouched remaining fields (`rest`). -/
structure LocationData where
  looseLoot : Option LooseLoot
  rest : String
deriving DecidableEq

/-- The `idToTpl` record built from `spawnPoint.template.Items` (later
entries overwrite earlier ones, as JS object assignment does). -/
def idToTpl (items : List TemplateItem) : String → Option String :=
  items.foldl (fun m i => setKey m i._id i._tpl) (fun _ => none)

/-- The per-spawn-point rewrite inside `newLocations`: entries whose
instance id has no template item are passed through unchanged; otherwise
the entry is rebuilt with the rewritten probability. -/
def rewriteSpawnPoint (cfg : Config) (mults : String → Option DropRateStats)
    (spawnPoint : SpawnPoint) : SpawnPoint :=
  let m := idToTpl spawnPoint.template.Items
  { spawnPoint with
    itemDistribution := spawnPoint.itemDistribution.map (fun itemDistribution =>
      match m itemDistribution.composedKey.key with
      | none => itemDistribution
      | some tpl =>
        { composedKey := ⟨itemDistribution.composedKey.key⟩,
          relativeProbability :=
            getNewLootProbability cfg mults tpl itemDistribution.relativeProbability }) }

/-- The `newLocations` loop: locations that are null or lack a
`looseLoot` key are passed through; otherwise the loose loot is shallow
copied with rewritten spawn points. -/
def newLocations (cfg : Config) (mults : String → Option DropRateStats)
    (locations : List (String × Option LocationData)) :
    List (String × Option LocationData) :=
  locations.map (fun entry =>
    match entry.2 with
    | none => (entry.1, none)
    | some location =>
      match location.looseLoot with
      | none => (entry.1, some location)
      | some looseLoot =>
        (entry.1, some { location with
          looseLoot := some { looseLoot with
            spawnpoints := looseLoot.spawnpoints.map (rewriteSpawnPoint cfg mults) } }))

/-- `getUpdatedLootTables`: the whole pipeline, returning the rewritten
static loot table and locations. -/
def getUpdatedLootTables (cfg : Config) (profile : Profile)
    (questItemRequirements hideoutItemRequirements : List ItemRequirement)
    (staticLoot : List (String × StaticLootDetails))
    (locations : List (String × Option LocationData)) :
    List (String × StaticLootDetails) × List (String × Option LocationData) :=
  let incomplete :=
    incompleteItemRequirements cfg profile questItemRequirements hideoutItemRequirements
  let mults := itemDropRateMultipliers cfg incomplete
  (newStaticLoot cfg mults staticLoot, newLocations cfg mults locations)

/-- The sum of the amounts needed by the FIR-demanding requirements for
item `i` in a requirement list. -/
def firNeedTotal (counters : String → Option ℚ) (i : String)
    (reqs : List ItemRequirement) : ℚ :=
  (reqs.map (fun r =>
    if r.itemId = i ∧ reqFir r = true then reqAmountNeeded counters r else 0)).sum

/-- The sum of the amounts needed by the non-FIR requirements for item `i`
in a requirement list. -/
def nfirNeedTotal (counters : String → Option ℚ) (i : String)
    (reqs : List ItemRequirement) : ℚ :=
  (reqs.map (fun r =>
    if r.itemId = i ∧ reqFir r = false then reqAmountNeeded counters r else 0)).sum

/-- Replace a requirement's elapsed seconds and elapsed raids, keeping
every other field (used to state the monotonicity property). -/
def ItemRequirement.withTimes (r : ItemRequirement) (s rr : ℚ) : ItemRequirement :=
  match r with
  | .quest b cid f =>
    .quest { b with secondsSinceStarted := s, raidsSinceStarted := rr } cid f
  | .questKey b => .questKey { b with secondsSinceStarted := s, raidsSinceStarted := rr }
  | .hideout b => .hideout { b with secondsSinceStarted := s, raidsSinceStarted := rr }

/-- Componentwise comparison of stats records with equal key flags. -/
def statsLE (s1 s2 : DropRateStats) : Prop :=
  s1.timeBasedDropRateMultiplier ≤ s2.timeBasedDropRateMultiplier ∧
    s1.raidBasedDropRateMultiplier ≤ s2.raidBasedDropRateMultiplier ∧ s1.isKey = s2.isKey

/-- Two multiplier maps that agree away from `i` and are componentwise
ordered at `i`. -/
def mapStatsLE (i : String) (m1 m2 : String → Option DropRateStats) : Prop :=
  (∀ j, j ≠ i → m1 j = m2 j) ∧
    ((m1 i = none ∧ m2 i = none) ∨
      ∃ s1 s2, m1 i = some s1 ∧ m2 i = some s2 ∧ statsLE s1 s2)

/-- Erase the probability of a static-loot distribution entry (shape
skeleton). -/
def eraseEntryProb (e : LootDistEntry) : LootDistEntry :=
  { e with relativeProbability := 0 }

/-- Erase every probability in a static loot table, keeping its shape. -/
def eraseStaticProb (staticLoot : List (String × StaticLootDetails)) :
    List (String × StaticLootDetails) :=
  staticLoot.map (fun e =>
    (e.1, { e.2 with itemDistribution := e.2.itemDistribution.map eraseEntryProb }))

/-- Erase the probability of a loose-loot distribution entry. -/
def eraseDistProb (d : ItemDistEntry) : ItemDistEntry :=
  { d with relativeProbability := 0 }

/-- Erase every probability of a spawn point. -/
def eraseSpawnProb (sp : SpawnPoint) : SpawnPoint :=
  { sp with itemDistribution := sp.itemDistribution.map eraseDistProb }

/-- Erase every probability of a locations table, keeping its shape. -/
def eraseLocsProb (locations : List (String × Option LocationData)) :
    List (String × Option LocationData) :=
  locations.map (fun e =>
    (e.1, e.2.map (fun loc =>
      { loc with looseLoot := loc.looseLoot.map (fun ll =>
        { ll with spawnpoints := ll.spawnpoints.map eraseSpawnProb }) })))

/-! ### Basic lemmas about the numeric helpers -/

theorem setKey_same {β : Type} (m : String → Option β) (k : String) (v : β) :
    setKey m k v k = some v := by
  simp [setKey]

theorem setKey_other {β : Type} (m : String → Option β) (k : String) (v : β) (x : String)
    (h : x ≠ k) : setKey m k v x = m x := by
  simp [setKey, h]

theorem jmin_eq_min (a b : ℚ) : jmin a b = min a b := (min_def a b).symm

theorem jmax_eq_max (a b : ℚ) : jmax a b = max a b := (max_def a b).symm

theorem jround_mono {a b : ℚ} (h : a ≤ b) : jround a ≤ jround b :=
  Int.floor_le_floor (by linarith)

theorem jround_nonneg {a : ℚ} (h : 0 ≤ a) : 0 ≤ jround a := by
  unfold jround
  refine Int.le_floor.mpr ?_
  push_cast
  linarith

/-! ### Unfolding lemmas for `getNewLootProbability` -/

theorem getNewLootProbability_none (cfg : Config) (mults : String → Option DropRateStats)
    (tpl : String) (p : ℚ) (h : mults tpl = none) :
    getNewLootProbability cfg mults tpl p = p := by
  unfold getNewLootProbability
  rw [h]

theorem getNewLootProbability_some (cfg : Config) (mults : String → Option DropRateStats)
    (tpl : String) (p : ℚ) (m : DropRateStats) (h : mults tpl = some m) :
    getNewLootProbability cfg mults tpl p =
      ((jround (p * jmin cfg.maxDropRateMultiplier (basisMult cfg m) *
        (if m.isKey then cfg.keysAdditionalMultiplier else 1)) : ℤ) : ℚ) := by
  unfold getNewLootProbability basisMult
  rw [h]
  by_cases hr : cfg.dropRateIncreaseType = "raid" <;> by_cases hk : m.isKey = true <;>
    simp [hr, hk, mul_one]

/-! ### The accumulated multipliers never drop below 1 -/

theorem updateStats_isKey (cfg : Config) (req : ItemRequirement) (stats : DropRateStats) :
    (updateStats cfg req stats).isKey = stats.isKey := rfl

theorem updateStats_time_ge (cfg : Config) (req : ItemRequirement) (stats : DropRateStats) :
    stats.timeBasedDropRateMultiplier ≤ (updateStats cfg req stats).timeBasedDropRateMultiplier := by
  show stats.timeBasedDropRateMultiplier ≤ jmax stats.timeBasedDropRateMultiplier _
  rw [jmax_eq_max]
  exact le_max_left _ _

theorem updateStats_raid_ge (cfg : Config) (req : ItemRequirement) (stats : DropRateStats) :
    stats.raidBasedDropRateMultiplier ≤ (updateStats cfg req stats).raidBasedDropRateMultiplier := by
  show stats.raidBasedDropRateMultiplier ≤ jmax stats.raidBasedDropRateMultiplier _
  rw [jmax_eq_max]
  exact le_max_left _ _

theorem foldl_multStep_ge_one (cfg : Config) :
    ∀ (reqs : List ItemRequirement) (m0 : String → Option DropRateStats),
      (∀ j s, m0 j = some s →
        1 ≤ s.timeBasedDropRateMultiplier ∧ 1 ≤ s.raidBasedDropRateMultiplier) →
      ∀ i s, reqs.foldl (multStep cfg) m0 i = some s →
        1 ≤ s.timeBasedDropRateMultiplier ∧ 1 ≤ s.raidBasedDropRateMultiplier
  | [], _, h => h
  | req :: rest, m0, h => by
    refine foldl_multStep_ge_one cfg rest (multStep cfg m0 req) ?_
    intro j s hj
    by_cases hji : j = req.itemId
    · have hj2 : s = updateStats cfg req ((m0 req.itemId).getD ⟨1, 1, req.isQuestKey⟩) := by
        simpa [multStep, setKey, hji] using hj.symm
      have h0 : 1 ≤ ((m0 req.itemId).getD ⟨1, 1, req.isQuestKey⟩).timeBasedDropRateMultiplier ∧
          1 ≤ ((m0 req.itemId).getD ⟨1, 1, req.isQuestKey⟩).raidBasedDropRateMultiplier := by
        cases hmi : m0 req.itemId with
        | none => simp
        | some s0 => simpa using h req.itemId s0 hmi
      subst hj2
      exact ⟨le_trans h0.1 (updateStats_time_ge cfg req _),
        le_trans h0.2 (updateStats_raid_ge cfg req _)⟩
    · exact h j s (by simpa [multStep, setKey, hji] using hj)

theorem itemDropRateMultipliers_ge_one (cfg : Config) (reqs : List ItemRequirement)
    (i : String) (s : DropRateStats) (h : itemDropRateMultipliers cfg reqs i = some s) :
    1 ≤ s.timeBasedDropRateMultiplier ∧ 1 ≤ s.raidBasedDropRateMultiplier :=
  foldl_multStep_ge_one cfg reqs _ (fun _ _ hj => by cases hj) i s h

theorem basisMult_ge_one (cfg : Config) (reqs : List ItemRequirement)
    (i : String) (s : DropRateStats) (h : itemDropRateMultipliers cfg reqs i = some s) :
    1 ≤ basisMult cfg s := by
  unfold basisMult
  rcases itemDropRateMultipliers_ge_one cfg reqs i s h with ⟨h1, h2⟩
  split <;> assumption

/-- C1: for an item with no `DropRateStats` entry the rewrite is the
identity; for an item with an entry it is
`round(original × min(maxDropRateMultiplier, basis multiplier) × (keysAdditionalMultiplier if isKey else 1))`,
and (for nonnegative original probability and nonnegative configured ceiling
and key bonus) the result is never negative. -/
theorem claim_C1 (cfg : Config) (reqs : List ItemRequirement) (tpl : String) (p : ℚ) :
    (itemDropRateMultipliers cfg reqs tpl = none →
      getNewLootProbability cfg (itemDropRateMultipliers cfg reqs) tpl p = p) ∧
    (∀ m, itemDropRateMultipliers cfg reqs tpl = some m →
      getNewLootProbability cfg (itemDropRateMultipliers cfg reqs) tpl p =
        ((jround (p * min cfg.maxDropRateMultiplier (basisMult cfg m) *
          (if m.isKey then cfg.keysAdditionalMultiplier else 1)) : ℤ) : ℚ) ∧
      (0 ≤ p → 0 ≤ cfg.maxDropRateMultiplier → 0 ≤ cfg.keysAdditionalMultiplier →
        0 ≤ getNewLootProbability cfg (itemDropRateMultipliers cfg reqs) tpl p)) := by
  constructor
  · exact getNewLootProbability_none cfg _ tpl p
  · intro m hm
    have heq := getNewLootProbability_some cfg _ tpl p m hm
    constructor
    · rw [heq, jmin_eq_min]
    · intro hp hceil hkb
      rw [heq]
      have hmin : 0 ≤ jmin cfg.maxDropRateMultiplier (basisMult cfg m) := by
        rw [jmin_eq_min]
        exact le_min hceil (le_trans zero_le_one (basisMult_ge_one cfg reqs tpl m hm))
      have hkf : 0 ≤ (if m.isKey then cfg.keysAdditionalMultiplier else 1) := by
        split
        · exact hkb
        · exact zero_le_one
      exact_mod_cast jround_nonneg (mul_nonneg (mul_nonneg hp hmin) hkf)

/-- Witness for C1: spec example 1 (raid basis, rate 0.1, 10 raids,
stacking off, ceiling 5): probability 50 becomes 100, and is nonnegative. -/
theorem claim_C1_witness :
    getNewLootProbability (⟨5, "raid", 1/10, 1/20, 3/2, false⟩ : Config)
      (itemDropRateMultipliers ⟨5, "raid", 1/10, 1/20, 3/2, false⟩
        [.hideout ⟨"X", 1, 0, 10⟩]) "X" 50 = 100 ∧
    (0 : ℚ) ≤ getNewLootProbability (⟨5, "raid", 1/10, 1/20, 3/2, false⟩ : Config)
      (itemDropRateMultipliers ⟨5, "raid", 1/10, 1/20, 3/2, false⟩
        [.hideout ⟨"X", 1, 0, 10⟩]) "X" 50 := by
  have hm : itemDropRateMultipliers (⟨5, "raid", 1/10, 1/20, 3/2, false⟩ : Config)
      [.hideout ⟨"X", 1, 0, 10⟩] "X" = some ⟨1, 2, false⟩ := by
    simp only [itemDropRateMultipliers, List.foldl, multStep, setKey, updateStats,
      ItemRequirement.itemId, ItemRequirement.base, ItemRequirement.isQuestKey,
      ItemRequirement.raidsSinceStarted, ItemRequirement.secondsSinceStarted,
      Option.getD, jround, jmax]
    norm_num
  have h := (claim_C1 ⟨5, "raid", 1/10, 1/20, 3/2, false⟩ [.hideout ⟨"X", 1, 0, 10⟩] "X" 50).2
    ⟨1, 2, false⟩ hm
  constructor
  · rw [h.1]
    simp only [basisMult, jround]
    norm_num
  · exact h.2 (by norm_num) (by norm_num) (by norm_num)

/-- C5: the non-FIR consumption policy of `checkIfHasEnoughAndRemove`:
enough non-FIR stock decrements non-FIR and succeeds; otherwise if
non-FIR + FIR suffices, non-FIR is set to the −1 sentinel, FIR is
decremented by the shortfall, and it succeeds; otherwise it fails with no
mutation. -/
theorem claim_C5 (itemCount : ItemCount) (amountNeeded : ℚ) :
    (amountNeeded ≤ itemCount.notFoundInRaid →
      checkIfHasEnoughAndRemove itemCount amountNeeded false =
        (true, { itemCount with
          notFoundInRaid := itemCount.notFoundInRaid - amountNeeded })) ∧
    (itemCount.notFoundInRaid < amountNeeded →
      amountNeeded ≤ itemCount.notFoundInRaid + itemCount.foundInRaid →
      checkIfHasEnoughAndRemove itemCount amountNeeded false =
        (true, ⟨itemCount.foundInRaid - (amountNeeded - itemCount.notFoundInRaid), -1⟩)) ∧
    (itemCount.notFoundInRaid < amountNeeded →
      itemCount.notFoundInRaid + itemCount.foundInRaid < amountNeeded →
      checkIfHasEnoughAndRemove itemCount amountNeeded false = (false, itemCount)) := by
  refine ⟨fun h1 => ?_, fun h1 h2 => ?_, fun h1 h2 => ?_⟩
  · simp [checkIfHasEnoughAndRemove, h1]
  · simp [checkIfHasEnoughAndRemove, not_le.mpr h1, h2]
  · simp [checkIfHasEnoughAndRemove, not_le.mpr h1, not_le.mpr h2]

/-- Witness for C5: spec example 4 — 1 FIR + 1 non-FIR, 2 needed, not
FIR-required: satisfied, non-FIR set to −1, FIR decremented to 0. -/
theorem claim_C5_witness :
    checkIfHasEnoughAndRemove ⟨1, 1⟩ 2 false = (true, ⟨0, -1⟩) := by
  have h := (claim_C5 ⟨1, 1⟩ 2).2.1 (by norm_num) (by norm_num)
  rw [h]
  norm_num

/-- Counterexample to C3: with ceiling 5 and key bonus 2, a quest-key item
aged 100 raids at rate 0.1 per raid gets raw multiplier 11, clamped to 5,
then multiplied by the key bonus after the clamp: an entry of probability 1
is rewritten to 10, a total scaling of 10 > maxDropRateMultiplier = 5. -/
theorem claim_C3_counterexample :
    getNewLootProbability (⟨5, "raid", 1/10, 1/20, 2, false⟩ : Config)
      (itemDropRateMultipliers ⟨5, "raid", 1/10, 1/20, 2, false⟩
        (incompleteItemRequirements ⟨5, "raid", 1/10, 1/20, 2, false⟩ ⟨[], fun _ => none⟩
          [.questKey ⟨"K", 1, 0, 100⟩] [])) "K" 1 = 10 ∧
    (Config.maxDropRateMultiplier ⟨5, "raid", 1/10, 1/20, 2, false⟩) * 1 <
      getNewLootProbability (⟨5, "raid", 1/10, 1/20, 2, false⟩ : Config)
        (itemDropRateMultipliers ⟨5, "raid", 1/10, 1/20, 2, false⟩
          (incompleteItemRequirements ⟨5, "raid", 1/10, 1/20, 2, false⟩ ⟨[], fun _ => none⟩
            [.questKey ⟨"K", 1, 0, 100⟩] [])) "K" 1 := by
  have h : getNewLootProbability (⟨5, "raid", 1/10, 1/20, 2, false⟩ : Config)
      (itemDropRateMultipliers ⟨5, "raid", 1/10, 1/20, 2, false⟩
        (incompleteItemRequirements ⟨5, "raid", 1/10, 1/20, 2, false⟩ ⟨[], fun _ => none⟩
          [.questKey ⟨"K", 1, 0, 100⟩] [])) "K" 1 = 10 := by
    simp only [incompleteItemRequirements, itemsInInventory, sortReqs, runReqs,
      List.insertionSort, List.orderedInsert, List.foldl, List.append_nil, List.nil_append,
      getNewLootProbability, itemDropRateMultipliers, multStep, updateStats, setKey,
      ItemRequirement.itemId, ItemRequirement.base, ItemRequirement.isQuestKey,
      ItemRequirement.raidsSinceStarted, ItemRequirement.secondsSinceStarted,
      Option.getD, jround, jmax, jmin]
    norm_num
  exact ⟨h, by rw [h]; norm_num⟩

/-- C3 amended: the basis multiplier is clamped at `maxDropRateMultiplier`
before the key bonus is applied, so the clamped factor never exceeds the
ceiling and the rewritten probability never exceeds
`round(original × maxDropRateMultiplier × (keysAdditionalMultiplier if isKey else 1))`;
for key items the total scaling may thus exceed the ceiling by up to the
key bonus factor, but no more. -/
theorem claim_C3 (cfg : Config) (reqs : List ItemRequirement) (tpl : String) (p : ℚ)
    (m : DropRateStats) (hm : itemDropRateMultipliers cfg reqs tpl = some m)
    (hp : 0 ≤ p) (hkb : 0 ≤ cfg.keysAdditionalMultiplier) :
    jmin cfg.maxDropRateMultiplier (basisMult cfg m) ≤ cfg.maxDropRateMultiplier ∧
    getNewLootProbability cfg (itemDropRateMultipliers cfg reqs) tpl p ≤
      ((jround (p * cfg.maxDropRateMultiplier *
        (if m.isKey then cfg.keysAdditionalMultiplier else 1)) : ℤ) : ℚ) := by
  have hclamp : jmin cfg.maxDropRateMultiplier (basisMult cfg m) ≤ cfg.maxDropRateMultiplier := by
    rw [jmin_eq_min]
    exact min_le_left _ _
  refine ⟨hclamp, ?_⟩
  rw [getNewLootProbability_some cfg _ tpl p m hm]
  have hkf : 0 ≤ (if m.isKey then cfg.keysAdditionalMultiplier else 1) := by
    split
    · exact hkb
    · exact zero_le_one
  have hle : p * jmin cfg.maxDropRateMultiplier (basisMult cfg m) *
      (if m.isKey then cfg.keysAdditionalMultiplier else 1) ≤
      p * cfg.maxDropRateMultiplier * (if m.isKey then cfg.keysAdditionalMultiplier else 1) :=
    mul_le_mul_of_nonneg_right (mul_le_mul_of_nonneg_left hclamp hp) hkf
  exact_mod_cast jround_mono hle

/-- Witness for C3 (amended): at the counterexample's configuration the
rewritten probability 10 is within `round(1 × 5 × 2) = 10`. -/
theorem claim_C3_witness :
    getNewLootProbability (⟨5, "raid", 1/10, 1/20, 2, false⟩ : Config)
      (itemDropRateMultipliers ⟨5, "raid", 1/10, 1/20, 2, false⟩
        [.questKey ⟨"K", 1, 0, 100⟩]) "K" 1 ≤ 10 := by
  have hm : itemDropRateMultipliers (⟨5, "raid", 1/10, 1/20, 2, false⟩ : Config)
      [.questKey ⟨"K", 1, 0, 100⟩] "K" = some ⟨1, 11, true⟩ := by
    simp only [itemDropRateMultipliers, List.foldl, multStep, setKey, updateStats,
      ItemRequirement.itemId, ItemRequirement.base, ItemRequirement.isQuestKey,
      ItemRequirement.raidsSinceStarted, ItemRequirement.secondsSinceStarted,
      Option.getD, jround, jmax]
    norm_num
  have h := (claim_C3 ⟨5, "raid", 1/10, 1/20, 2, false⟩ [.questKey ⟨"K", 1, 0, 100⟩] "K" 1
    ⟨1, 11, true⟩ hm (by norm_num) (by norm_num)).2
  refine le_trans h ?_
  simp only [jround]
  norm_num

/-- The isKey flag of the stats a fold starting from `m0` produces at key
`i`: it is `m0 i`'s flag when present, otherwise the quest-key-ness of the
first folded requirement whose item is `i` (updates never change it). -/
theorem foldl_multStep_isKey (cfg : Config) :
    ∀ (reqs : List ItemRequirement) (m0 : String → Option DropRateStats) (i : String),
      ((reqs.foldl (multStep cfg) m0) i).map DropRateStats.isKey =
        match m0 i with
        | some s => some s.isKey
        | none => (reqs.find? (fun r => r.itemId == i)).map ItemRequirement.isQuestKey
  | [], m0, i => by
    cases hm : m0 i <;> simp [hm]
  | req :: rest, m0, i => by
    have ih := foldl_multStep_isKey cfg rest (multStep cfg m0 req) i
    simp only [List.foldl] at ih ⊢
    rw [ih]
    by_cases hi : i = req.itemId
    · have hset : multStep cfg m0 req i =
          some (updateStats cfg req ((m0 i).getD ⟨1, 1, req.isQuestKey⟩)) := by
        simp [multStep, setKey, hi]
      rw [hset]
      have hbeq : (req.itemId == i) = true := by simp [hi]
      cases hm : m0 i with
      | none => simp [updateStats_isKey, hm, List.find?, hbeq]
      | some s => simp [updateStats_isKey, hm]
    · have hset : multStep cfg m0 req i = m0 i := by
        simp [multStep, setKey, hi]
      rw [hset]
      have hbeq : (req.itemId == i) = false := by
        simp
        exact fun h => hi h.symm
      cases hm : m0 i with
      | none => simp [List.find?, hbeq]
      | some s => simp

/-- Counterexample to C4: with a hideout requirement for item "A" processed
before a quest-key requirement for the same item, the accumulated stats
record has `isKey = false` even though a contributing requirement is of
quest-key type. -/
theorem claim_C4_counterexample :
    ((itemDropRateMultipliers ⟨5, "raid", 1/10, 1/20, 2, false⟩
        [.hideout ⟨"A", 1, 0, 0⟩, .questKey ⟨"A", 1, 0, 0⟩] "A").map DropRateStats.isKey =
      some false) ∧
    (ItemRequirement.questKey ⟨"A", 1, 0, 0⟩) ∈
      [ItemRequirement.hideout ⟨"A", 1, 0, 0⟩, ItemRequirement.questKey ⟨"A", 1, 0, 0⟩] ∧
    (ItemRequirement.questKey ⟨"A", 1, 0, 0⟩).isQuestKey = true ∧
    (ItemRequirement.questKey ⟨"A", 1, 0, 0⟩).itemId = "A" := by
  refine ⟨?_, by simp, rfl, rfl⟩
  rw [itemDropRateMultipliers, foldl_multStep_isKey]
  simp [List.find?, ItemRequirement.itemId, ItemRequirement.base, ItemRequirement.isQuestKey]

/-- C4 amended: the accumulated `isKey` flag for an item equals the
quest-key-ness of the *first* incomplete requirement processed for that
item (later quest-key requirements for the same item do not set it). -/
theorem claim_C4 (cfg : Config) (reqs : List ItemRequirement) (i : String) :
    ((itemDropRateMultipliers cfg reqs i).map DropRateStats.isKey) =
      (reqs.find? (fun r => r.itemId == i)).map ItemRequirement.isQuestKey := by
  rw [itemDropRateMultipliers, foldl_multStep_isKey]

/-- C9: the documented defaults for missing optional data — a stack with
no count contributes 1 unit, a stack with no FIR flag (or no `upd` at all)
counts as not-found-in-raid, a quest condition with no backend counter is
treated as progress 0, and a required item with no aggregated inventory
entry makes the requirement immediately unsatisfied with no consumption. -/
theorem claim_C9 :
    (∀ (acc : String → Option ItemCount) (tpl : String) (fir : Option Bool),
      invStep acc ⟨tpl, some ⟨none, fir⟩⟩ = invStep acc ⟨tpl, some ⟨some 1, fir⟩⟩) ∧
    (∀ (acc : String → Option ItemCount) (tpl : String) (cnt : Option ℚ),
      invStep acc ⟨tpl, some ⟨cnt, none⟩⟩ = invStep acc ⟨tpl, some ⟨cnt, some false⟩⟩) ∧
    (∀ (acc : String → Option ItemCount) (tpl : String),
      invStep acc ⟨tpl, none⟩ = invStep acc ⟨tpl, some ⟨some 1, some false⟩⟩) ∧
    (∀ (counters : String → Option ℚ) (b : BaseItemRequirement) (cid : String) (f : Bool),
      counters cid = none → reqAmountNeeded counters (.quest b cid f) = b.amountRequired) ∧
    (∀ (counters : String → Option ℚ) (inv : String → Option ItemCount)
      (req : ItemRequirement) (rest : List ItemRequirement),
      inv req.itemId = none →
      runReqs counters inv (req :: rest) = req :: runReqs counters inv rest) := by
  refine ⟨fun acc tpl fir => rfl, fun acc tpl cnt => rfl, fun acc tpl => rfl,
    fun counters b cid f h => ?_, fun counters inv req rest h => ?_⟩
  · simp [reqAmountNeeded, h]
  · rw [runReqs, h]

/-- Witness for C9: concrete instantiations of the two conditional
defaults — an empty inventory record leaves a hideout requirement
unsatisfied untouched, and a quest requirement with no counter needs its
full `amountRequired`. -/
theorem claim_C9_witness :
    runReqs (fun _ => none) (fun _ => none) [.hideout ⟨"X", 1, 0, 0⟩] =
      [ItemRequirement.hideout ⟨"X", 1, 0, 0⟩] ∧
    reqAmountNeeded (fun _ => none) (.quest ⟨"X", 3, 0, 0⟩ "c" false) = 3 := by
  constructor
  · rw [claim_C9.2.2.2.2 (fun _ => none) (fun _ => none) (.hideout ⟨"X", 1, 0, 0⟩) [] rfl]
    rfl
  · rw [claim_C9.2.2.2.1 (fun _ => none) ⟨"X", 3, 0, 0⟩ "c" false rfl]

/-- Counterexample to C10: the player holds 1 FIR + 1 non-FIR unit of
item "Z" (so an aggregated entry exists), and the quest requirement's
backend counter (5) equals its `amountRequired` (5), yet the consumption
attempt fails: an earlier hideout requirement drained the entry to the
−1 sentinel, and `−1 < 0` makes the zero-amount quest attempt fail, so
the quest requirement stays in the incomplete set. -/
theorem claim_C10_counterexample :
    itemsInInventory [⟨"Z", some ⟨some 1, some true⟩⟩, ⟨"Z", some ⟨some 1, none⟩⟩] "Z" =
      some ⟨1, 1⟩ ∧
    incompleteItemRequirements ⟨5, "raid", 1/10, 1/20, 2, false⟩
      ⟨[⟨"Z", some ⟨some 1, some true⟩⟩, ⟨"Z", some ⟨some 1, none⟩⟩],
        fun c => if c = "c" then some 5 else none⟩
      [.quest ⟨"Z", 5, 0, 1⟩ "c" false] [.hideout ⟨"Z", 2, 0, 0⟩] =
      [ItemRequirement.quest ⟨"Z", 5, 0, 1⟩ "c" false] := by
  constructor
  · simp only [itemsInInventory, List.foldl, invStep, setKey, Option.getD, Option.bind]
    norm_num
  · simp only [incompleteItemRequirements, itemsInInventory, sortReqs, List.insertionSort,
      List.orderedInsert, cmpLE, sortKey, reqFir, List.foldl, invStep, setKey,
      List.cons_append, List.nil_append, runReqs, checkIfHasEnoughAndRemove, reqAmountNeeded,
      ItemRequirement.itemId, ItemRequirement.base, ItemRequirement.raidsSinceStarted,
      ItemRequirement.secondsSinceStarted, Option.getD, Option.bind]
    norm_num

/-- C10 amended: a quest consumption attempt whose backend progress is at
least `amountRequired` succeeds — and the consumed-from count is
*increased* by `progress − amountRequired` — provided the attempt's
running record has not been sentinel-drained: the FIR count must be
nonnegative, and for a non-FIR-demanding requirement the non-FIR count
must be nonnegative as well (the −1 sentinel violates this and makes the
attempt fail, as the counterexample shows). -/
theorem claim_C10 (counters : String → Option ℚ) (b : BaseItemRequirement) (cid : String)
    (fir : Bool) (c : ItemCount) (progress : ℚ)
    (hc : counters cid = some progress) (hge : b.amountRequired ≤ progress)
    (hfir : 0 ≤ c.foundInRaid) (hnfir : fir = true ∨ 0 ≤ c.notFoundInRaid) :
    checkIfHasEnoughAndRemove c (reqAmountNeeded counters (.quest b cid fir)) fir =
      (true,
        if fir then { c with foundInRaid := c.foundInRaid + (progress - b.amountRequired) }
        else { c with notFoundInRaid := c.notFoundInRaid + (progress - b.amountRequired) }) := by
  have hamt : reqAmountNeeded counters (.quest b cid fir) = b.amountRequired - progress := by
    simp [reqAmountNeeded, hc]
  rw [hamt]
  cases fir with
  | true =>
    have h1 : b.amountRequired - progress ≤ c.foundInRaid := by linarith
    simp only [checkIfHasEnoughAndRemove, if_pos h1, if_true]
    simp only [Prod.mk.injEq, ItemCount.mk.injEq, true_and, and_true]
    ring
  | false =>
    have hn : 0 ≤ c.notFoundInRaid := hnfir.resolve_left (by simp)
    have h1 : b.amountRequired - progress ≤ c.notFoundInRaid := by linarith
    simp only [checkIfHasEnoughAndRemove, if_pos h1, Bool.false_eq_true, if_false]
    simp only [Prod.mk.injEq, ItemCount.mk.injEq, true_and, and_true]
    ring

/-- Witness for C10 (amended): progress 5 ≥ required 5 on an intact
record `⟨0, 0⟩` succeeds and leaves the non-FIR count at 0. -/
theorem claim_C10_witness :
    checkIfHasEnoughAndRemove ⟨0, 0⟩
      (reqAmountNeeded (fun _ => some 5) (.quest ⟨"Z", 5, 0, 0⟩ "c" false)) false =
      (true, ⟨0, 0⟩) := by
  have h := claim_C10 (fun _ => some 5) ⟨"Z", 5, 0, 0⟩ "c" false ⟨0, 0⟩ 5 rfl (by norm_num)
    (by norm_num) (Or.inr (by norm_num))
  rw [h]
  norm_num

/-! ### Consumption exactness (C2) -/

theorem firNeedTotal_cons (counters : String → Option ℚ) (i : String)
    (r : ItemRequirement) (rest : List ItemRequirement) :
    firNeedTotal counters i (r :: rest) =
      (if r.itemId = i ∧ reqFir r = true then reqAmountNeeded counters r else 0) +
        firNeedTotal counters i rest := by
  simp [firNeedTotal]

theorem nfirNeedTotal_cons (counters : String → Option ℚ) (i : String)
    (r : ItemRequirement) (rest : List ItemRequirement) :
    nfirNeedTotal counters i (r :: rest) =
      (if r.itemId = i ∧ reqFir r = false then reqAmountNeeded counters r else 0) +
        nfirNeedTotal counters i rest := by
  simp [nfirNeedTotal]

theorem firNeedTotal_nonneg (counters : String → Option ℚ) (i : String)
    (reqs : List ItemRequirement)
    (h : ∀ r ∈ reqs, r.itemId = i → 0 ≤ reqAmountNeeded counters r) :
    0 ≤ firNeedTotal counters i reqs := by
  induction reqs with
  | nil => simp [firNeedTotal]
  | cons r rest ih =>
    rw [firNeedTotal_cons]
    have h1 : 0 ≤ (if r.itemId = i ∧ reqFir r = true then reqAmountNeeded counters r else 0) := by
      split
      · next hcond => exact h r (List.mem_cons_self _ _) hcond.1
      · exact le_refl 0
    have h2 := ih (fun r hr hri => h r (List.mem_cons_of_mem _ hr) hri)
    linarith

theorem nfirNeedTotal_nonneg (counters : String → Option ℚ) (i : String)
    (reqs : List ItemRequirement)
    (h : ∀ r ∈ reqs, r.itemId = i → 0 ≤ reqAmountNeeded counters r) :
    0 ≤ nfirNeedTotal counters i reqs := by
  induction reqs with
  | nil => simp [nfirNeedTotal]
  | cons r rest ih =>
    rw [nfirNeedTotal_cons]
    have h1 : 0 ≤ (if r.itemId = i ∧ reqFir r = false then reqAmountNeeded counters r else 0) := by
      split
      · next hcond => exact h r (List.mem_cons_self _ _) hcond.1
      · exact le_refl 0
    have h2 := ih (fun r hr hri => h r (List.mem_cons_of_mem _ hr) hri)
    linarith

theorem firNeedTotal_perm (counters : String → Option ℚ) (i : String)
    {l1 l2 : List ItemRequirement} (h : l1.Perm l2) :
    firNeedTotal counters i l1 = firNeedTotal counters i l2 :=
  (h.map _).sum_eq

theorem nfirNeedTotal_perm (counters : String → Option ℚ) (i : String)
    {l1 l2 : List ItemRequirement} (h : l1.Perm l2) :
    nfirNeedTotal counters i l1 = nfirNeedTotal counters i l2 :=
  (h.map _).sum_eq

/-- If the running record for item `i` holds exactly the FIR and non-FIR
totals still needed by the remaining requirements (all nonnegative), every
remaining requirement for `i` is satisfied, so none of them is kept. -/
theorem runReqs_consume_exact (counters : String → Option ℚ) (i : String) :
    ∀ (reqs : List ItemRequirement) (inv : String → Option ItemCount),
      (∀ r ∈ reqs, r.itemId = i → 0 ≤ reqAmountNeeded counters r) →
      inv i = some ⟨firNeedTotal counters i reqs, nfirNeedTotal counters i reqs⟩ →
      ∀ r ∈ runReqs counters inv reqs, r.itemId ≠ i
  | [], _, _, _ => by simp [runReqs]
  | req :: rest, inv, hpos, hinv => by
    have hposrest : ∀ r ∈ rest, r.itemId = i → 0 ≤ reqAmountNeeded counters r :=
      fun r hr => hpos r (List.mem_cons_of_mem _ hr)
    by_cases hid : req.itemId = i
    · have hposhead : 0 ≤ reqAmountNeeded counters req := hpos req (List.mem_cons_self _ _) hid
      have hc : inv req.itemId =
          some ⟨firNeedTotal counters i (req :: rest), nfirNeedTotal counters i (req :: rest)⟩ := by
        rw [hid]; exact hinv
      cases hf : reqFir req with
      | true =>
        have hfir1 : firNeedTotal counters i (req :: rest) =
            reqAmountNeeded counters req + firNeedTotal counters i rest := by
          rw [firNeedTotal_cons]; simp [hid, hf]
        have hnfir1 : nfirNeedTotal counters i (req :: rest) = nfirNeedTotal counters i rest := by
          rw [nfirNeedTotal_cons]; simp [hf]
        have hle : reqAmountNeeded counters req ≤ firNeedTotal counters i (req :: rest) := by
          have := firNeedTotal_nonneg counters i rest hposrest
          rw [hfir1]; linarith
        have hres : checkIfHasEnoughAndRemove
            ⟨firNeedTotal counters i (req :: rest), nfirNeedTotal counters i (req :: rest)⟩
            (reqAmountNeeded counters req) (reqFir req) =
            (true, ⟨firNeedTotal counters i rest, nfirNeedTotal counters i rest⟩) := by
          rw [hf]
          simp only [checkIfHasEnoughAndRemove, if_true, if_pos hle, Prod.mk.injEq,
            ItemCount.mk.injEq, true_and]
          constructor
          · rw [hfir1]; ring
          · rw [hnfir1]
        rw [runReqs, hc]
        simp only [hres, if_true]
        refine runReqs_consume_exact counters i rest _ hposrest ?_
        rw [← hid, setKey_same]
      | false =>
        have hfir1 : firNeedTotal counters i (req :: rest) = firNeedTotal counters i rest := by
          rw [firNeedTotal_cons]; simp [hf]
        have hnfir1 : nfirNeedTotal counters i (req :: rest) =
            reqAmountNeeded counters req + nfirNeedTotal counters i rest := by
          rw [nfirNeedTotal_cons]; simp [hid, hf]
        have hle : reqAmountNeeded counters req ≤ nfirNeedTotal counters i (req :: rest) := by
          have := nfirNeedTotal_nonneg counters i rest hposrest
          rw [hnfir1]; linarith
        have hres : checkIfHasEnoughAndRemove
            ⟨firNeedTotal counters i (req :: rest), nfirNeedTotal counters i (req :: rest)⟩
            (reqAmountNeeded counters req) (reqFir req) =
            (true, ⟨firNeedTotal counters i rest, nfirNeedTotal counters i rest⟩) := by
          rw [hf]
          simp only [checkIfHasEnoughAndRemove, Bool.false_eq_true, if_false, if_pos hle,
            Prod.mk.injEq, ItemCount.mk.injEq, true_and]
          constructor
          · rw [hfir1]
          · rw [hnfir1]; ring
        rw [runReqs, hc]
        simp only [hres, if_true]
        refine runReqs_consume_exact counters i rest _ hposrest ?_
        rw [← hid, setKey_same]
    · have hfir1 : firNeedTotal counters i (req :: rest) = firNeedTotal counters i rest := by
        rw [firNeedTotal_cons]; simp [hid]
      have hnfir1 : nfirNeedTotal counters i (req :: rest) = nfirNeedTotal counters i rest := by
        rw [nfirNeedTotal_cons]; simp [hid]
      have hinvrest : inv i = some ⟨firNeedTotal counters i rest, nfirNeedTotal counters i rest⟩ := by
        rw [← hfir1, ← hnfir1]; exact hinv
      cases hci : inv req.itemId with
      | none =>
        rw [runReqs, hci]
        intro r hr
        rcases List.mem_cons.mp hr with rfl | hr2
        · exact fun h => hid h
        · exact runReqs_consume_exact counters i rest inv hposrest hinvrest r hr2
      | some c =>
        have hinv2 : setKey inv req.itemId
            (checkIfHasEnoughAndRemove c (reqAmountNeeded counters req) (reqFir req)).2 i =
            some ⟨firNeedTotal counters i rest, nfirNeedTotal counters i rest⟩ := by
          rw [setKey_other _ _ _ _ (fun h => hid h.symm)]
          exact hinvrest
        have hrec := runReqs_consume_exact counters i rest _ hposrest hinv2
        rw [runReqs, hci]
        cases hb : (checkIfHasEnoughAndRemove c (reqAmountNeeded counters req) (reqFir req)).1 with
        | true =>
          simp only [hb, if_true]
          exact hrec
        | false =>
          simp only [hb, Bool.false_eq_true, if_false]
          intro r hr
          rcases List.mem_cons.mp hr with rfl | hr2
          · exact fun h => hid h
          · exact hrec r hr2

/-- Counterexample to C2: the aggregated inventory for "W" (2 FIR + 1
non-FIR = 3 units) exactly equals the sum of the amounts needed by its two
hideout requirements (2 + 1, in sorted order), yet the second requirement
stays in the incomplete set: satisfying the first via the NFIR+FIR
fallback sets the non-FIR count to the −1 sentinel, losing one unit of
bookkept capacity. -/
theorem claim_C2_counterexample :
    itemsInInventory [⟨"W", some ⟨some 1, none⟩⟩, ⟨"W", some ⟨some 2, some true⟩⟩] "W" =
      some ⟨2, 1⟩ ∧
    incompleteItemRequirements ⟨5, "raid", 1/10, 1/20, 2, false⟩
      ⟨[⟨"W", some ⟨some 1, none⟩⟩, ⟨"W", some ⟨some 2, some true⟩⟩], fun _ => none⟩
      [] [.hideout ⟨"W", 2, 0, 1⟩, .hideout ⟨"W", 1, 0, 2⟩] =
      [ItemRequirement.hideout ⟨"W", 1, 0, 2⟩] := by
  constructor
  · simp only [itemsInInventory, List.foldl, invStep, setKey, Option.getD, Option.bind]
    norm_num
  · simp only [incompleteItemRequirements, itemsInInventory, sortReqs, List.insertionSort,
      List.orderedInsert, cmpLE, sortKey, reqFir, List.foldl, invStep, setKey,
      List.cons_append, List.nil_append, runReqs, checkIfHasEnoughAndRemove, reqAmountNeeded,
      ItemRequirement.itemId, ItemRequirement.base, ItemRequirement.raidsSinceStarted,
      ItemRequirement.secondsSinceStarted, Option.getD, Option.bind]
    norm_num

/-- C2 amended: if, for an item, the aggregated FIR count equals the sum of
the amounts needed by its FIR-demanding requirements and the aggregated
non-FIR count equals the sum of the amounts needed by its non-FIR
requirements (each amount nonnegative), then the incomplete set contains
none of that item's requirements.  (The original combined-total claim
fails because the −1 sentinel of the NFIR+FIR fallback burns one unit of
bookkept capacity, as the counterexample shows.) -/
theorem claim_C2 (cfg : Config) (profile : Profile)
    (questReqs hideoutReqs : List ItemRequirement) (i : String)
    (hpos : ∀ r ∈ questReqs ++ hideoutReqs, r.itemId = i →
      0 ≤ reqAmountNeeded profile.backendCounters r)
    (hinv : itemsInInventory profile.inventoryItems i =
      some ⟨firNeedTotal profile.backendCounters i (questReqs ++ hideoutReqs),
            nfirNeedTotal profile.backendCounters i (questReqs ++ hideoutReqs)⟩) :
    ∀ r ∈ incompleteItemRequirements cfg profile questReqs hideoutReqs, r.itemId ≠ i := by
  have hperm : (sortReqs cfg (questReqs ++ hideoutReqs)).Perm (questReqs ++ hideoutReqs) :=
    List.perm_insertionSort _ _
  have hpos2 : ∀ r ∈ sortReqs cfg (questReqs ++ hideoutReqs), r.itemId = i →
      0 ≤ reqAmountNeeded profile.backendCounters r :=
    fun r hr => hpos r (hperm.mem_iff.mp hr)
  have hinv2 : itemsInInventory profile.inventoryItems i =
      some ⟨firNeedTotal profile.backendCounters i (sortReqs cfg (questReqs ++ hideoutReqs)),
            nfirNeedTotal profile.backendCounters i (sortReqs cfg (questReqs ++ hideoutReqs))⟩ := by
    rw [firNeedTotal_perm _ _ hperm, nfirNeedTotal_perm _ _ hperm]
    exact hinv
  exact runReqs_consume_exact profile.backendCounters i _ _ hpos2 hinv2

/-- Witness for C2 (amended): 2 non-FIR units of "Y" against one hideout
requirement needing 2 — "Y" does not appear among the incomplete items. -/
theorem claim_C2_witness :
    "Y" ∉ (incompleteItemRequirements (⟨5, "raid", 1/10, 1/20, 2, false⟩ : Config)
      ⟨[⟨"Y", some ⟨some 2, none⟩⟩], fun _ => none⟩ []
      [.hideout ⟨"Y", 2, 0, 0⟩]).map ItemRequirement.itemId := by
  intro hmem
  rcases List.mem_map.mp hmem with ⟨r, hr, hidr⟩
  refine claim_C2 ⟨5, "raid", 1/10, 1/20, 2, false⟩
    ⟨[⟨"Y", some ⟨some 2, none⟩⟩], fun _ => none⟩ [] [.hideout ⟨"Y", 2, 0, 0⟩] "Y" ?_ ?_ r hr hidr
  · intro r hr2 _
    rcases List.mem_singleton.mp (by simpa using hr2) with rfl
    simp [reqAmountNeeded]
  · simp only [itemsInInventory, List.foldl, invStep, setKey, Option.getD, Option.bind,
      List.nil_append, firNeedTotal, nfirNeedTotal, List.map, List.sum_cons, List.sum_nil,
      reqFir, reqAmountNeeded, ItemRequirement.itemId, ItemRequirement.base]
    norm_num

/-! ### The requirement ordering (C6) -/

theorem cmpLE_total (cfg : Config) (a b : ItemRequirement) :
    cmpLE cfg a b = true ∨ cmpLE cfg b a = true := by
  unfold cmpLE
  cases ha : reqFir a <;> cases hb : reqFir b <;> simp [ha, hb] <;> exact le_total _ _

theorem cmpLE_trans (cfg : Config) (a b c : ItemRequirement)
    (h1 : cmpLE cfg a b = true) (h2 : cmpLE cfg b c = true) : cmpLE cfg a c = true := by
  unfold cmpLE at h1 h2 ⊢
  cases ha : reqFir a <;> cases hb : reqFir b <;> cases hc : reqFir c <;>
    simp [ha, hb, hc] at h1 h2 ⊢ <;> exact le_trans h1 h2

theorem cmpLE_implies (cfg : Config) (a b : ItemRequirement) (h : cmpLE cfg a b = true) :
    (reqFir b = true → reqFir a = true) ∧
      (reqFir a = reqFir b → sortKey cfg a ≤ sortKey cfg b) := by
  unfold cmpLE at h
  cases ha : reqFir a <;> cases hb : reqFir b <;> simp [ha, hb] at h ⊢ <;> exact h

theorem filter_orderedInsert {α : Type} (r : α → α → Prop) [DecidableRel r] (p : α → Bool)
    (hp : ∀ a b, p a = true → p b = true → r a b) (a : α) :
    ∀ l : List α, (List.orderedInsert r a l).filter p =
      if p a then a :: l.filter p else l.filter p
  | [] => by
    cases hpa : p a <;> simp [List.orderedInsert, List.filter, hpa]
  | b :: l => by
    by_cases hr : r a b
    · rw [List.orderedInsert, if_pos hr, List.filter_cons]
    · rw [List.orderedInsert, if_neg hr, List.filter_cons,
        filter_orderedInsert r p hp a l]
      by_cases hpa : p a = true
      · have hpb : ¬ p b = true := fun hpb => hr (hp a b hpa hpb)
        simp [hpa, hpb, List.filter_cons]
      · simp [hpa, List.filter_cons]

theorem filter_insertionSort {α : Type} (r : α → α → Prop) [DecidableRel r] (p : α → Bool)
    (hp : ∀ a b, p a = true → p b = true → r a b) :
    ∀ l : List α, (List.insertionSort r l).filter p = l.filter p
  | [] => rfl
  | b :: l => by
    rw [List.insertionSort, filter_orderedInsert r p hp b _,
      filter_insertionSort r p hp l, List.filter_cons]

/-- C6: the merged requirement list is sorted by a stable sort applied
once: the output is a permutation of the input, every pair in output order
satisfies FIR-first (an element can only precede a FIR-demanding one if it
is itself FIR-demanding) and, within a tier, ascending comparator key
(`raidsSinceStarted` under the raid basis, else `secondsSinceStarted`);
and requirements with equal tier and key keep their input order. -/
theorem claim_C6 (cfg : Config) (l : List ItemRequirement) :
    (sortReqs cfg l).Perm l ∧
    List.Pairwise (fun a b => (reqFir b = true → reqFir a = true) ∧
      (reqFir a = reqFir b → sortKey cfg a ≤ sortKey cfg b)) (sortReqs cfg l) ∧
    ∀ (t : Bool) (k : ℚ),
      (sortReqs cfg l).filter (fun r => reqFir r == t && decide (sortKey cfg r = k)) =
        l.filter (fun r => reqFir r == t && decide (sortKey cfg r = k)) := by
  refine ⟨List.perm_insertionSort _ l, ?_, ?_⟩
  · haveI : IsTotal ItemRequirement (fun a b => cmpLE cfg a b = true) := ⟨cmpLE_total cfg⟩
    haveI : IsTrans ItemRequirement (fun a b => cmpLE cfg a b = true) := ⟨cmpLE_trans cfg⟩
    have hs := List.sorted_insertionSort (fun a b => cmpLE cfg a b = true) l
    exact List.Pairwise.imp (fun hab => cmpLE_implies cfg _ _ hab) hs
  · intro t k
    refine filter_insertionSort _ _ ?_ l
    intro a b hpa hpb
    simp only [Bool.and_eq_true, beq_iff_eq, decide_eq_true_eq] at hpa hpb
    unfold cmpLE
    simp [hpa.1, hpb.1, hpa.2, hpb.2]

/-- Witness for C6: a two-element instance (a non-FIR hideout requirement
and a FIR quest requirement) — the sorted list is a permutation of the
input. -/
theorem claim_C6_witness :
    (sortReqs ⟨5, "raid", 1/10, 1/20, 2, false⟩
      [.hideout ⟨"A", 1, 0, 5⟩, .quest ⟨"B", 1, 0, 1⟩ "c" true]).Perm
      [.hideout ⟨"A", 1, 0, 5⟩, .quest ⟨"B", 1, 0, 1⟩ "c" true] :=
  (claim_C6 ⟨5, "raid", 1/10, 1/20, 2, false⟩
    [.hideout ⟨"A", 1, 0, 5⟩, .quest ⟨"B", 1, 0, 1⟩ "c" true]).1

/-! ### Monotonicity of the multipliers in the elapsed values (C7) -/

theorem withTimes_itemId (r : ItemRequirement) (s rr : ℚ) :
    (r.withTimes s rr).itemId = r.itemId := by
  cases r <;> rfl

theorem withTimes_isQuestKey (r : ItemRequirement) (s rr : ℚ) :
    (r.withTimes s rr).isQuestKey = r.isQuestKey := by
  cases r <;> rfl

theorem withTimes_seconds (r : ItemRequirement) (s rr : ℚ) :
    (r.withTimes s rr).secondsSinceStarted = s := by
  cases r <;> rfl

theorem withTimes_raids (r : ItemRequirement) (s rr : ℚ) :
    (r.withTimes s rr).raidsSinceStarted = rr := by
  cases r <;> rfl

theorem jmax_le_jmax {a b c d : ℚ} (h1 : a ≤ c) (h2 : b ≤ d) : jmax a b ≤ jmax c d := by
  rw [jmax_eq_max, jmax_eq_max]
  exact max_le_max h1 h2

theorem updateStats_time (cfg : Config) (r : ItemRequirement) (s : DropRateStats) :
    (updateStats cfg r s).timeBasedDropRateMultiplier =
      jmax s.timeBasedDropRateMultiplier
        ((jround (r.secondsSinceStarted / 60 / 60) : ℤ) * cfg.dropRateIncreasePerHour +
          (if cfg.increasesStack then s.timeBasedDropRateMultiplier else 1)) := rfl

theorem updateStats_raid (cfg : Config) (r : ItemRequirement) (s : DropRateStats) :
    (updateStats cfg r s).raidBasedDropRateMultiplier =
      jmax s.raidBasedDropRateMultiplier
        (r.raidsSinceStarted * cfg.dropRateIncreasePerRaid +
          (if cfg.increasesStack then s.raidBasedDropRateMultiplier else 1)) := rfl

theorem statsLE_refl (s : DropRateStats) : statsLE s s :=
  ⟨le_refl _, le_refl _, rfl⟩

theorem mapStatsLE_refl (i : String) (m : String → Option DropRateStats) : mapStatsLE i m m := by
  refine ⟨fun j _ => rfl, ?_⟩
  cases h : m i with
  | none => exact Or.inl ⟨rfl, rfl⟩
  | some s => exact Or.inr ⟨s, s, rfl, rfl, statsLE_refl s⟩

theorem updateStats_mono (cfg : Config) (r1 r2 : ItemRequirement)
    (hsec : r1.secondsSinceStarted ≤ r2.secondsSinceStarted)
    (hraid : r1.raidsSinceStarted ≤ r2.raidsSinceStarted)
    (hph : 0 ≤ cfg.dropRateIncreasePerHour) (hpr : 0 ≤ cfg.dropRateIncreasePerRaid)
    (s1 s2 : DropRateStats) (hs : statsLE s1 s2) :
    statsLE (updateStats cfg r1 s1) (updateStats cfg r2 s2) := by
  obtain ⟨ht, hr, hk⟩ := hs
  have hhours : ((jround (r1.secondsSinceStarted / 60 / 60) : ℤ) : ℚ) ≤
      ((jround (r2.secondsSinceStarted / 60 / 60) : ℤ) : ℚ) := by
    have hdiv : r1.secondsSinceStarted / 60 / 60 ≤ r2.secondsSinceStarted / 60 / 60 := by
      gcongr
    exact_mod_cast jround_mono hdiv
  refine ⟨?_, ?_, hk⟩
  · rw [updateStats_time, updateStats_time]
    refine jmax_le_jmax ht (add_le_add (mul_le_mul_of_nonneg_right hhours hph) ?_)
    cases cfg.increasesStack
    · exact le_refl 1
    · exact ht
  · rw [updateStats_raid, updateStats_raid]
    refine jmax_le_jmax hr (add_le_add (mul_le_mul_of_nonneg_right hraid hpr) ?_)
    cases cfg.increasesStack
    · exact le_refl 1
    · exact hr

theorem multStep_eq (cfg : Config) (m : String → Option DropRateStats) (req : ItemRequirement) :
    multStep cfg m req =
      setKey m req.itemId (updateStats cfg req ((m req.itemId).getD ⟨1, 1, req.isQuestKey⟩)) := rfl

/-- Folding the same requirement into two `mapStatsLE`-related maps keeps
them related. -/
theorem multStep_mapStatsLE_same (cfg : Config) (i : String) (req : ItemRequirement)
    (hph : 0 ≤ cfg.dropRateIncreasePerHour) (hpr : 0 ≤ cfg.dropRateIncreasePerRaid)
    (m1 m2 : String → Option DropRateStats) (h : mapStatsLE i m1 m2) :
    mapStatsLE i (multStep cfg m1 req) (multStep cfg m2 req) := by
  obtain ⟨hagree, hat⟩ := h
  by_cases hri : req.itemId = i
  · constructor
    · intro j hj
      rw [multStep_eq, multStep_eq, setKey_other _ _ _ _ (hri ▸ hj),
        setKey_other _ _ _ _ (hri ▸ hj)]
      exact hagree j hj
    · refine Or.inr ?_
      have hstats : statsLE ((m1 req.itemId).getD ⟨1, 1, req.isQuestKey⟩)
          ((m2 req.itemId).getD ⟨1, 1, req.isQuestKey⟩) := by
        rw [hri]
        rcases hat with ⟨ha, hb⟩ | ⟨s1, s2, ha, hb, hs⟩
        · rw [ha, hb]
          exact statsLE_refl _
        · rw [ha, hb]
          exact hs
      refine ⟨_, _, ?_, ?_,
        updateStats_mono cfg req req (le_refl _) (le_refl _) hph hpr _ _ hstats⟩
      · rw [multStep_eq, ← hri, setKey_same]
      · rw [multStep_eq, ← hri, setKey_same]
  · constructor
    · intro j hj
      by_cases hjr : j = req.itemId
      · subst hjr
        rw [multStep_eq, multStep_eq, setKey_same, setKey_same, hagree req.itemId hri]
      · rw [multStep_eq, multStep_eq, setKey_other _ _ _ _ hjr, setKey_other _ _ _ _ hjr]
        exact hagree j hj
    · rw [multStep_eq, multStep_eq, setKey_other _ _ _ _ (fun hh => hri hh.symm),
        setKey_other _ _ _ _ (fun hh => hri hh.symm)]
      exact hat

/-- Folding two requirements that differ only in their elapsed values
(the second aged at least as much) into two related maps keeps the maps
related at the requirements' item. -/
theorem multStep_mapStatsLE_diff (cfg : Config) (r1 r2 : ItemRequirement)
    (hid : r1.itemId = r2.itemId) (hqk : r1.isQuestKey = r2.isQuestKey)
    (hsec : r1.secondsSinceStarted ≤ r2.secondsSinceStarted)
    (hraid : r1.raidsSinceStarted ≤ r2.raidsSinceStarted)
    (hph : 0 ≤ cfg.dropRateIncreasePerHour) (hpr : 0 ≤ cfg.dropRateIncreasePerRaid)
    (m1 m2 : String → Option DropRateStats) (h : mapStatsLE r1.itemId m1 m2) :
    mapStatsLE r1.itemId (multStep cfg m1 r1) (multStep cfg m2 r2) := by
  obtain ⟨hagree, hat⟩ := h
  constructor
  · intro j hj
    rw [multStep_eq, multStep_eq, setKey_other _ _ _ _ hj, ← hid, setKey_other _ _ _ _ hj]
    exact hagree j hj
  · refine Or.inr ?_
    have hstats : statsLE ((m1 r1.itemId).getD ⟨1, 1, r1.isQuestKey⟩)
        ((m2 r2.itemId).getD ⟨1, 1, r2.isQuestKey⟩) := by
      rw [← hid, ← hqk]
      rcases hat with ⟨ha, hb⟩ | ⟨s1, s2, ha, hb, hs⟩
      · rw [ha, hb]
        exact statsLE_refl _
      · rw [ha, hb]
        exact hs
    refine ⟨_, _, ?_, ?_, updateStats_mono cfg r1 r2 hsec hraid hph hpr _ _ hstats⟩
    · rw [multStep_eq, setKey_same]
    · rw [multStep_eq, ← hid, setKey_same]

theorem foldl_multStep_mapStatsLE (cfg : Config) (i : String)
    (hph : 0 ≤ cfg.dropRateIncreasePerHour) (hpr : 0 ≤ cfg.dropRateIncreasePerRaid) :
    ∀ (reqs : List ItemRequirement) (m1 m2 : String → Option DropRateStats),
      mapStatsLE i m1 m2 →
      mapStatsLE i (reqs.foldl (multStep cfg) m1) (reqs.foldl (multStep cfg) m2)
  | [], _, _, h => h
  | req :: rest, m1, m2, h =>
    foldl_multStep_mapStatsLE cfg i hph hpr rest _ _
      (multStep_mapStatsLE_same cfg i req hph hpr m1 m2 h)

/-- C7: in two requirement lists identical except that one requirement's
elapsed seconds and raids have been increased, the accumulated multipliers
for that requirement's item never decrease (for nonnegative configured
rates). -/
theorem claim_C7 (cfg : Config) (pre post : List ItemRequirement) (r : ItemRequirement)
    (s2 rr2 : ℚ) (hs : r.secondsSinceStarted ≤ s2) (hr : r.raidsSinceStarted ≤ rr2)
    (hph : 0 ≤ cfg.dropRateIncreasePerHour) (hpr : 0 ≤ cfg.dropRateIncreasePerRaid)
    (m1 m2 : DropRateStats)
    (h1 : itemDropRateMultipliers cfg (pre ++ r :: post) r.itemId = some m1)
    (h2 : itemDropRateMultipliers cfg (pre ++ r.withTimes s2 rr2 :: post) r.itemId = some m2) :
    m1.timeBasedDropRateMultiplier ≤ m2.timeBasedDropRateMultiplier ∧
      m1.raidBasedDropRateMultiplier ≤ m2.raidBasedDropRateMultiplier := by
  have hbase : mapStatsLE r.itemId (pre.foldl (multStep cfg) (fun _ => none))
      (pre.foldl (multStep cfg) (fun _ => none)) := mapStatsLE_refl _ _
  have hstep := multStep_mapStatsLE_diff cfg r (r.withTimes s2 rr2)
    (withTimes_itemId r s2 rr2).symm (withTimes_isQuestKey r s2 rr2).symm
    (by rw [withTimes_seconds]; exact hs) (by rw [withTimes_raids]; exact hr)
    hph hpr _ _ hbase
  have hfinal := foldl_multStep_mapStatsLE cfg r.itemId hph hpr post _ _ hstep
  rw [itemDropRateMultipliers, List.foldl_append, List.foldl_cons] at h1 h2
  rcases hfinal.2 with ⟨ha, _⟩ | ⟨s1, s2', ha, hb, hs12⟩
  · rw [h1] at ha
    cases ha
  · rw [h1] at ha
    rw [h2] at hb
    cases ha
    cases hb
    exact ⟨hs12.1, hs12.2.1⟩

/-- Witness for C7: aging a hideout requirement from 1 raid to 3 raids
(raid rate 0.1) raises its item's raid multiplier from 1.1 to 1.3, and
the monotonicity theorem applies at these inputs. -/
theorem claim_C7_witness :
    itemDropRateMultipliers (⟨5, "raid", 1/10, 1/20, 2, false⟩ : Config)
      [.hideout ⟨"I", 1, 0, 1⟩] "I" = some ⟨1, 11/10, false⟩ ∧
    itemDropRateMultipliers (⟨5, "raid", 1/10, 1/20, 2, false⟩ : Config)
      [(ItemRequirement.hideout ⟨"I", 1, 0, 1⟩).withTimes 0 3] "I" = some ⟨1, 13/10, false⟩ ∧
    (1 : ℚ) ≤ 1 ∧ (11/10 : ℚ) ≤ 13/10 := by
  have h1 : itemDropRateMultipliers (⟨5, "raid", 1/10, 1/20, 2, false⟩ : Config)
      [.hideout ⟨"I", 1, 0, 1⟩] "I" = some ⟨1, 11/10, false⟩ := by
    simp only [itemDropRateMultipliers, List.foldl, multStep, setKey, updateStats,
      ItemRequirement.itemId, ItemRequirement.base, ItemRequirement.isQuestKey,
      ItemRequirement.raidsSinceStarted, ItemRequirement.secondsSinceStarted,
      Option.getD, jround, jmax]
    norm_num
  have h2 : itemDropRateMultipliers (⟨5, "raid", 1/10, 1/20, 2, false⟩ : Config)
      [(ItemRequirement.hideout ⟨"I", 1, 0, 1⟩).withTimes 0 3] "I" = some ⟨1, 13/10, false⟩ := by
    simp only [itemDropRateMultipliers, ItemRequirement.withTimes, List.foldl, multStep, setKey,
      updateStats, ItemRequirement.itemId, ItemRequirement.base, ItemRequirement.isQuestKey,
      ItemRequirement.raidsSinceStarted, ItemRequirement.secondsSinceStarted,
      Option.getD, jround, jmax]
    norm_num
  exact ⟨h1, h2, claim_C7 ⟨5, "raid", 1/10, 1/20, 2, false⟩ [] [] (.hideout ⟨"I", 1, 0, 1⟩)
    0 3 (le_refl 0)
    (by norm_num [ItemRequirement.raidsSinceStarted, ItemRequirement.base])
    (by norm_num) (by norm_num) ⟨1, 11/10, false⟩ ⟨1, 13/10, false⟩ h1 h2⟩

/-! ### Shape preservation of the rewritten tables (C8) -/

theorem eraseStaticProb_newStaticLoot (cfg : Config) (mults : String → Option DropRateStats)
    (staticLoot : List (String × StaticLootDetails)) :
    eraseStaticProb (newStaticLoot cfg mults staticLoot) = eraseStaticProb staticLoot := by
  unfold eraseStaticProb newStaticLoot
  rw [List.map_map]
  refine List.map_congr_left (fun e _ => ?_)
  simp only [Function.comp_apply, List.map_map]
  refine congrArg (Prod.mk e.1) ?_
  refine congrArg (StaticLootDetails.mk e.2.itemcountDistribution) ?_
  exact List.map_congr_left (fun d _ => rfl)

theorem eraseSpawnProb_rewriteSpawnPoint (cfg : Config) (mults : String → Option DropRateStats)
    (sp : SpawnPoint) :
    eraseSpawnProb (rewriteSpawnPoint cfg mults sp) = eraseSpawnProb sp := by
  unfold eraseSpawnProb rewriteSpawnPoint
  simp only [List.map_map]
  refine congrArg (SpawnPoint.mk sp.locationId sp.template) ?_
  refine List.map_congr_left (fun d _ => ?_)
  simp only [Function.comp_apply]
  cases h : idToTpl sp.template.Items d.composedKey.key <;> simp [h, eraseDistProb]

theorem eraseLocsProb_newLocations (cfg : Config) (mults : String → Option DropRateStats)
    (locations : List (String × Option LocationData)) :
    eraseLocsProb (newLocations cfg mults locations) = eraseLocsProb locations := by
  unfold eraseLocsProb newLocations
  rw [List.map_map]
  refine List.map_congr_left (fun e _ => ?_)
  simp only [Function.comp_apply]
  cases he : e.2 with
  | none => simp [he]
  | some loc =>
    cases hl : loc.looseLoot with
    | none => simp [he, hl]
    | some ll =>
      simp [he, hl, List.map_map]
      exact fun sp _ => eraseSpawnProb_rewriteSpawnPoint cfg mults sp

/-- C8: the rewritten static loot table and locations differ from their
inputs only in `relativeProbability` values: erasing every probability
yields identical structures (same container keys, item-count
distributions, entry templates, spawn points, entry counts and order).
In this embedding the rewrite is a pure function, so the inputs are not
mutated. -/
theorem claim_C8 (cfg : Config) (profile : Profile)
    (questItemRequirements hideoutItemRequirements : List ItemRequirement)
    (staticLoot : List (String × StaticLootDetails))
    (locations : List (String × Option LocationData)) :
    eraseStaticProb (getUpdatedLootTables cfg profile questItemRequirements
      hideoutItemRequirements staticLoot locations).1 = eraseStaticProb staticLoot ∧
    eraseLocsProb (getUpdatedLootTables cfg profile questItemRequirements
      hideoutItemRequirements staticLoot locations).2 = eraseLocsProb locations :=
  ⟨eraseStaticProb_newStaticLoot _ _ _, eraseLocsProb_newLocations _ _ _⟩

end PityLoot
